import Mathlib

/-!
# PCAMetric3: per-resolution reconfiguration and initialization

A shallow embedding of `elxPCAMetric3.hxx` (`PCAMetric3::Initialize` and
`PCAMetric3::BeforeEachResolution`) together with the properties of the
component that follow from the code.

The member functions read their surroundings through pointers: the
configuration, the registration's current level, the component label and the
transform hierarchy.  Here they are explicit inputs (`Host`), the metric's
member variables are an explicit record (`MetricParameters`), and everything
the call does to the outside (configuration reads, log lines) is returned as a
trace (`Outcome`).
-/

namespace elastix

/-! ## Data model -/

/-- A `double`, identified by its bit pattern.  The code only copies such values
(from the configuration into a member), it never computes with them. -/
structure Double where
  bits : Nat
deriving DecidableEq, Repr

/-- The fixed-size array `itk::FixedArray<T, n>` (also `itk::Size<n>`): exactly `n`
components. -/
structure FixedArray (α : Type) (n : Nat) where
  data : List α
  size_eq : data.length = n
deriving DecidableEq, Repr

namespace FixedArray

/-- Component `i`, the C++ `a[i]` as an rvalue. -/
def get {α : Type} {n : Nat} (a : FixedArray α n) (i : Fin n) : α :=
  a.data.get ⟨i.val, by rw [a.size_eq]; exact i.isLt⟩

/-- The array after the assignment `a[i] = v`. -/
def set {α : Type} {n : Nat} (a : FixedArray α n) (i : Fin n) (v : α) : FixedArray α n :=
  ⟨a.data.set i.val v, by rw [List.length_set]; exact a.size_eq⟩

/-- The array after `Fill(v)`: every component equals `v`. -/
def Fill {α : Type} (n : Nat) (v : α) : FixedArray α n :=
  ⟨List.replicate n v, List.length_replicate n v⟩

end FixedArray

/-- Modelled from the spec: the argument list of `ReadParameter`, whose declaration
is not part of the sources at hand.  The spec gives the signature
`ReadParameter(outValue, key, componentLabel, axisIndex, resolutionLevel, lenient)`;
a call is recorded with its arguments in that order, so `axisIndex` is the fourth
and `resolutionLevel` the fifth argument of the C++ call.  The fifth argument is
kept as a signed number because the code passes the literal `-1` there. -/
structure ReadCall where
  key : String
  componentLabel : String
  axisIndex : Nat
  resolutionLevel : Int
  lenient : Bool
deriving DecidableEq, Repr

/-- Modelled from the spec: the value of `lenient` in a call of `ReadParameter` that
passes five arguments only (`lenient: bool = false`). -/
def defaultLenient : Bool := false

/-- The configuration as seen through `ReadParameter` for one value type: whether
the call finds a value, and what the output slot holds after the call, given what
it held before.  The store is read-only, so both depend on the call's arguments
only. -/
structure Reader (α : Type) where
  found : ReadCall → Bool
  store : ReadCall → α → α

/-- A reader that leaves the output slot as it was whenever it reports not-found. -/
def Reader.LeavesMissingUntouched {α : Type} (r : Reader α) : Prop :=
  ∀ (c : ReadCall) (old : α), r.found c = false → r.store c old = old

/-- The configuration: one reader for each value type the metric reads
(`bool`, `unsigned int`, `double`). -/
structure Configuration where
  bools : Reader Bool
  uints : Reader Nat
  doubles : Reader Double

/-- The call `ReadParameter(slot, key, label, axisIndex, resolutionLevel, lenient)`:
returns the found flag and the new content of `slot`. -/
def ReadParameter {α : Type} (r : Reader α) (slot : α) (c : ReadCall) : Bool × α :=
  (r.found c, r.store c slot)

/-- The member variables of the metric that `BeforeEachResolution` sets.
`F` is `FixedImageDimension`, `M` is `MovingImageDimension`. -/
structure MetricParameters (F M : Nat) where
  subtractMean : Bool
  numAdditionalSamplesFixed : Nat
  reducedDimensionIndex : Nat
  useMovingImageDerivativeScales : Bool
  movingImageDerivativeScales : FixedArray Double M
  isStackTransform : Bool
  gridSize : FixedArray Nat F
deriving DecidableEq, Repr

/-! ### The transform hierarchy

Every `dynamic_cast` of the code is a field holding the result of the cast:
`none` for a null result (which is also the result of casting a null pointer). -/

/-- What `BSplineTransformBaseType` offers to the metric: `GetGridRegion().GetSize()`. -/
structure BSplineTransformBase (F : Nat) where
  gridRegionSize : FixedArray Nat F

/-- A reduced-dimension B-spline transform, with the size of its own grid region. -/
structure ReducedDimensionBSplineTransformBase where
  gridRegionSize : List Nat

/-- A sub-transform of a stack transform, as far as the metric looks at it. -/
structure SubTransform where
  asReducedDimensionBSplineTransformBase : Option ReducedDimensionBSplineTransformBase

/-- A stack transform: its ordered sub-transforms. -/
structure StackTransform where
  subTransforms : List SubTransform

/-- The number of sub-transforms of the stack. -/
def StackTransform.GetNumberOfSubTransforms (t : StackTransform) : Nat :=
  t.subTransforms.length

/-- Sub-transform `i` of the stack. -/
def StackTransform.GetSubTransform (t : StackTransform) (i : Nat) : Option SubTransform :=
  t.subTransforms.get? i

/-- The object `GetCurrentTransform()` points to: the outcome of casting it to a
B-spline transform and to a stack transform. -/
structure CurrentTransform (F : Nat) where
  asBSplineTransformBase : Option (BSplineTransformBase F)
  asStackTransform : Option StackTransform

/-- A combination transform: it wraps one current transform. -/
structure CombinationTransform (F : Nat) where
  GetCurrentTransform : CurrentTransform F

/-- The object `GetElxTransformBase()` points to: the outcome of casting it to a
combination transform. -/
structure ElxTransformBase (F : Nat) where
  asCombinationTransform : Option (CombinationTransform F)

/-- A line written to `elxout`. -/
inductive LogLine where
  | initializationTook (ms : Int)
  | multiplyingBy (scales : List Double)
deriving DecidableEq, Repr

/-- Everything `BeforeEachResolution` reads from outside the metric. `uninitialised`
is the content of the local `movingImageDerivativeScales` before the loop writes
to it (its constructor does not initialise the components). -/
structure Host (F M : Nat) where
  configuration : Configuration
  componentLabel : String
  currentLevel : Nat
  elxTransformBase : ElxTransformBase F
  uninitialised : FixedArray Double M

/-- The effect of one call: the member variables afterwards, the configuration
reads in the order they were issued, and the lines written to the log. -/
structure Outcome (F M : Nat) where
  params : MetricParameters F M
  reads : List ReadCall
  log : List LogLine

/-! ## The setters (`itkSetMacro`) -/

section Setters
variable {F M : Nat}

def SetSubtractMean (v : Bool) (s : MetricParameters F M) : MetricParameters F M :=
  { s with subtractMean := v }

def SetNumAdditionalSamplesFixed (v : Nat) (s : MetricParameters F M) : MetricParameters F M :=
  { s with numAdditionalSamplesFixed := v }

def SetReducedDimensionIndex (v : Nat) (s : MetricParameters F M) : MetricParameters F M :=
  { s with reducedDimensionIndex := v }

def SetUseMovingImageDerivativeScales (v : Bool) (s : MetricParameters F M) :
    MetricParameters F M :=
  { s with useMovingImageDerivativeScales := v }

def SetMovingImageDerivativeScales (v : FixedArray Double M) (s : MetricParameters F M) :
    MetricParameters F M :=
  { s with movingImageDerivativeScales := v }

def SetTransformIsStackTransform (v : Bool) (s : MetricParameters F M) :
    MetricParameters F M :=
  { s with isStackTransform := v }

def SetGridSize (v : FixedArray Nat F) (s : MetricParameters F M) : MetricParameters F M :=
  { s with gridSize := v }

end Setters

/-! ## Initialize -/

/-- `PCAMetric3::Initialize`.  `superInitialize` is the outcome of
`Superclass1::Initialize()` (it returns, or throws `e`), `elapsedMs` is
`static_cast<long>(timer.GetMean() * 1000)`, `log` the lines written so far.
The result is how the call ends and the log afterwards. -/
def Initialize {ε : Type} (superInitialize : Except ε Unit) (elapsedMs : Int)
    (log : List LogLine) : Except ε Unit × List LogLine :=
  match superInitialize with
  | Except.error e => (Except.error e, log)
  | Except.ok () => (Except.ok (), log ++ [LogLine.initializationTook elapsedMs])

/-! ## BeforeEachResolution -/

section Resolution
variable {F M : Nat}

/-- The variables the loop over the axes works on. -/
structure ScalesLoop (M : Nat) where
  usescales : Bool
  movingImageDerivativeScales : FixedArray Double M
  reads : List ReadCall

/-- The read issued by the loop for axis `i`. -/
def scalesCall (label : String) (i : Nat) : ReadCall :=
  ⟨"MovingImageDerivativeScales", label, i, -1, true⟩

/-- One pass through the loop body,
`usescales = usescales && ReadParameter(movingImageDerivativeScales[i], ..., i, -1, true)`:
`&&` does not evaluate its right operand when `usescales` is already false. -/
def scalesBody (cfg : Configuration) (label : String) (st : ScalesLoop M) (i : Fin M) :
    ScalesLoop M :=
  if st.usescales then
    let r := ReadParameter cfg.doubles (st.movingImageDerivativeScales.get i)
      (scalesCall label i.val)
    { usescales := r.1
      movingImageDerivativeScales := st.movingImageDerivativeScales.set i r.2
      reads := st.reads ++ [scalesCall label i.val] }
  else st

/-- The loop `for (i = 0; i < MovingImageDimension; ++i)` after its first `n` passes
(`i = 0, ..., n - 1`), started from `st`. -/
def scalesLoop (cfg : Configuration) (label : String) (st : ScalesLoop M) :
    (n : Nat) → n ≤ M → ScalesLoop M
  | 0, _ => st
  | n + 1, h => scalesBody cfg label (scalesLoop cfg label st n (Nat.le_of_succ_le h)) ⟨n, h⟩

/-- Lines 91-127: the chain of casts on the transform and what it sets. -/
def inspectTransform (tr : ElxTransformBase F) (s : MetricParameters F M) :
    MetricParameters F M :=
  match tr.asCombinationTransform with
  | none => s
  | some testPtr1 =>
    match testPtr1.GetCurrentTransform.asBSplineTransformBase with
    | some testPtr2 => SetGridSize testPtr2.gridRegionSize s
    | none =>
      match testPtr1.GetCurrentTransform.asStackTransform with
      | none => s
      | some testPtr3 =>
        let s1 := SetTransformIsStackTransform true s
        if testPtr3.GetNumberOfSubTransforms > 0 then
          match (testPtr3.GetSubTransform 0).bind
              SubTransform.asReducedDimensionBSplineTransformBase with
          | some _ =>
            SetGridSize (FixedArray.Fill F testPtr3.GetNumberOfSubTransforms) s1
          | none => s1
        else s1

/-- `PCAMetric3::BeforeEachResolution`. -/
def BeforeEachResolution (host : Host F M) (s : MetricParameters F M) : Outcome F M :=
  let level := host.currentLevel
  let cfg := host.configuration
  let label := host.componentLabel
  -- SubtractMean
  let c1 : ReadCall := ⟨"SubtractMean", label, 0, 0, defaultLenient⟩
  let subtractMean := (ReadParameter cfg.bools false c1).2
  let s1 := SetSubtractMean subtractMean s
  -- NumAdditionalSamplesFixed
  let c2 : ReadCall := ⟨"NumAdditionalSamplesFixed", label, level, 0, defaultLenient⟩
  let numAdditionalSamplesFixed := (ReadParameter cfg.uints 0 c2).2
  let s2 := SetNumAdditionalSamplesFixed numAdditionalSamplesFixed s1
  -- ReducedDimensionIndex
  let c3 : ReadCall := ⟨"ReducedDimensionIndex", label, 0, 0, defaultLenient⟩
  let reducedDimensionIndex := (ReadParameter cfg.uints 0 c3).2
  let s3 := SetReducedDimensionIndex reducedDimensionIndex s2
  -- moving image derivative scales
  let s4 := SetUseMovingImageDerivativeScales false s3
  let loop := scalesLoop cfg label ⟨true, host.uninitialised, [c1, c2, c3]⟩ M (Nat.le_refl M)
  let s5 :=
    if loop.usescales then
      SetMovingImageDerivativeScales loop.movingImageDerivativeScales
        (SetUseMovingImageDerivativeScales true s4)
    else s4
  let log :=
    if loop.usescales then [LogLine.multiplyingBy loop.movingImageDerivativeScales.data]
    else []
  -- transform
  { params := inspectTransform host.elxTransformBase s5
    reads := loop.reads
    log := log }

end Resolution

/-! ## The host pipeline -/

/-- Modelled from the spec: the host pipeline, which is not part of the sources at
hand, calls `BeforeEachResolution` once per resolution level, one level after the
other.  `hosts` lists what the metric sees at each level, in the order of the
levels; the result is the member variables after the last level. -/
def runResolutions {F M : Nat} (hosts : List (Host F M)) (s : MetricParameters F M) :
    MetricParameters F M :=
  hosts.foldl (fun acc host => (BeforeEachResolution host acc).params) s

/-- A reader that, whenever it finds a value, writes it over the output slot
whatever the slot held before. -/
def Reader.OverwritesWhenFound {α : Type} (r : Reader α) : Prop :=
  ∀ (c : ReadCall) (old other : α), r.found c = true → r.store c old = r.store c other

/-! ## BaseComponent: values as text -/

namespace BaseComponent

/-- Modelled from the spec: `BaseComponent::BoolToString`, whose code is not part of
the sources at hand (only its test is).  It returns the literal `"false"` or
`"true"`. -/
def BoolToString (arg : Bool) : String :=
  if arg then "true" else "false"

/-- Modelled from the spec: `BaseComponent::ToString` for a boolean, which delegates
to `BoolToString`. -/
def ToStringBool (arg : Bool) : String :=
  BoolToString arg

/-- The character of a decimal digit. -/
def digitChar (d : Nat) : Char :=
  match d with
  | 0 => '0'
  | 1 => '1'
  | 2 => '2'
  | 3 => '3'
  | 4 => '4'
  | 5 => '5'
  | 6 => '6'
  | 7 => '7'
  | 8 => '8'
  | _ => '9'

/-- The decimal digits of `n`, most significant first; `fuel` bounds the number of
digits and any `fuel > n` is enough. -/
def decimalDigits : Nat → Nat → List Char
  | 0, _ => []
  | fuel + 1, n =>
    if n < 10 then [digitChar n] else decimalDigits fuel (n / 10) ++ [digitChar (n % 10)]

/-- Modelled from the spec: `BaseComponent::ToString` for a signed or unsigned
integer, whose code is not part of the sources at hand: the exact decimal text, with
a leading `-` only for a negative value.  A 64-bit value of either signedness is
the integer it denotes. -/
def ToStringInteger (integerValue : Int) : String :=
  if integerValue < 0 then
    String.mk ('-' :: decimalDigits (integerValue.natAbs + 1) integerValue.natAbs)
  else
    String.mk (decimalDigits (integerValue.natAbs + 1) integerValue.natAbs)

/-- The value of a decimal digit character, `none` for any other character. -/
def digitValue (c : Char) : Option Nat :=
  if c = '0' then some 0
  else if c = '1' then some 1
  else if c = '2' then some 2
  else if c = '3' then some 3
  else if c = '4' then some 4
  else if c = '5' then some 5
  else if c = '6' then some 6
  else if c = '7' then some 7
  else if c = '8' then some 8
  else if c = '9' then some 9
  else none

/-- Reading a run of decimal digits, continuing from the value `acc` of the digits
already read; `none` when a character is no digit. -/
def parseDigitsFrom : Nat → List Char → Option Nat
  | acc, [] => some acc
  | acc, c :: cs =>
    match digitValue c with
    | some d => parseDigitsFrom (10 * acc + d) cs
    | none => none

/-- Reading a text as a decimal integer: an optional `-`, then at least one digit and
nothing but digits. -/
def parseInteger (text : String) : Option Int :=
  match text.data with
  | [] => none
  | '-' :: [] => none
  | '-' :: cs => (parseDigitsFrom 0 cs).map (fun v => -(Int.ofNat v))
  | cs => (parseDigitsFrom 0 cs).map Int.ofNat

/-- Modelled from the spec: `BaseComponent::ToVectorOfStrings` for a fixed-size tuple
(size, index, point, vector), whose code is not part of the sources at hand: the
text of each component, in the order of the components.  `ToString` is the scalar
rule for the component type. -/
def ToVectorOfStrings {α : Type} {k : Nat} (ToString : α → String) (t : FixedArray α k) :
    List String :=
  t.data.map ToString

/-- Modelled from the spec: `BaseComponent::ToVectorOfStrings` for a matrix with `R`
rows and `C` columns, given as its rows: the texts of the elements, row after row. -/
def ToVectorOfStringsOfMatrix {α : Type} {R C : Nat} (ToString : α → String)
    (m : FixedArray (FixedArray α C) R) : List String :=
  m.data.flatMap (fun row => row.data.map ToString)

end BaseComponent

/-! ## Sample inputs -/

/-- A reader that finds nothing and leaves every slot as it was. -/
def emptyReader (α : Type) : Reader α :=
  ⟨fun _ => false, fun _ old => old⟩

/-- The configuration without any entry. -/
def emptyConfiguration : Configuration :=
  ⟨emptyReader Bool, emptyReader Nat, emptyReader Double⟩

/-- A configuration with `SubtractMean`, `NumAdditionalSamplesFixed` (a value for each
fourth argument) and `MovingImageDerivativeScales` on the axes 0 and 1;
`ReducedDimensionIndex` is absent. -/
def sampleConfiguration : Configuration :=
  { bools :=
      ⟨fun c => decide (c.key = "SubtractMean"),
       fun c old => if c.key = "SubtractMean" then true else old⟩
    uints :=
      ⟨fun c => decide (c.key = "NumAdditionalSamplesFixed"),
       fun c old => if c.key = "NumAdditionalSamplesFixed" then 10 + c.axisIndex else old⟩
    doubles :=
      ⟨fun c => decide (c.key = "MovingImageDerivativeScales" ∧ c.axisIndex < 2),
       fun c old =>
        if c.key = "MovingImageDerivativeScales" ∧ c.axisIndex < 2 then ⟨100 + c.axisIndex⟩
        else old⟩ }

/-- Member variables as some earlier call may have left them. -/
def sampleParameters (F M : Nat) : MetricParameters F M :=
  ⟨true, 7, 7, true, FixedArray.Fill M ⟨9⟩, false, FixedArray.Fill F 5⟩

/-- A transform that is not a combination transform. -/
def plainTransform (F : Nat) : ElxTransformBase F :=
  ⟨none⟩

/-- A combination transform around a B-spline transform with the given grid region
size. -/
def bsplineTransform {F : Nat} (grid : FixedArray Nat F) : ElxTransformBase F :=
  ⟨some ⟨⟨some ⟨grid⟩, none⟩⟩⟩

/-- A combination transform around a transform that is neither a B-spline nor a
stack transform. -/
def otherTransform (F : Nat) : ElxTransformBase F :=
  ⟨some ⟨⟨none, none⟩⟩⟩

/-- A combination transform around a stack transform with the given
sub-transforms. -/
def stackTransform (F : Nat) (subs : List SubTransform) : ElxTransformBase F :=
  ⟨some ⟨⟨none, some ⟨subs⟩⟩⟩⟩

/-- A sub-transform that is a reduced-dimension B-spline transform with a grid of
its own. -/
def reducedBSplineSub : SubTransform :=
  ⟨some ⟨[4]⟩⟩

/-- A sub-transform that is not a reduced-dimension B-spline transform. -/
def otherSub : SubTransform :=
  ⟨none⟩

/-- A host with the given configuration, level and transform, and zeros in the
local array. -/
def sampleHost (F M : Nat) (cfg : Configuration) (level : Nat) (tr : ElxTransformBase F) :
    Host F M :=
  ⟨cfg, "Metric", level, tr, FixedArray.Fill M ⟨0⟩⟩

/-! ## Auxiliary facts -/

namespace FixedArray

theorem ext_data {α : Type} {n : Nat} {a b : FixedArray α n} (h : a.data = b.data) : a = b := by
  cases a; cases b; cases h; rfl

theorem get_set_same {α : Type} {n : Nat} (a : FixedArray α n) (i : Fin n) (v : α) :
    (a.set i v).get i = v := by
  simp [FixedArray.get, FixedArray.set]

theorem get_set_ne {α : Type} {n : Nat} (a : FixedArray α n) (i j : Fin n) (v : α)
    (h : i.val ≠ j.val) : (a.set i v).get j = a.get j := by
  simp [FixedArray.get, FixedArray.set, List.getElem_set_ne h]

theorem get_Fill {α : Type} (n : Nat) (v : α) (i : Fin n) : (Fill n v).get i = v := by
  simp [FixedArray.get, FixedArray.Fill]

theorem ext_get {α : Type} {n : Nat} {a b : FixedArray α n}
    (h : ∀ i : Fin n, a.get i = b.get i) : a = b := by
  apply ext_data
  apply List.ext_get
  · rw [a.size_eq, b.size_eq]
  · intro i h1 h2
    exact h ⟨i, by rw [← a.size_eq]; exact h1⟩

theorem getElem?_data {α : Type} {n : Nat} (a : FixedArray α n) (i : Fin n) :
    a.data[i.val]? = some (a.get i) := by
  unfold FixedArray.get
  rw [List.get_eq_getElem]
  exact List.getElem?_eq_getElem _

end FixedArray

section Facts
variable {F M : Nat}

/-- The casts on the transform touch `isStackTransform` and `gridSize` only. -/
theorem inspectTransform_frame (tr : ElxTransformBase F) (s : MetricParameters F M) :
    (inspectTransform tr s).subtractMean = s.subtractMean ∧
    (inspectTransform tr s).numAdditionalSamplesFixed = s.numAdditionalSamplesFixed ∧
    (inspectTransform tr s).reducedDimensionIndex = s.reducedDimensionIndex ∧
    (inspectTransform tr s).useMovingImageDerivativeScales = s.useMovingImageDerivativeScales ∧
    (inspectTransform tr s).movingImageDerivativeScales = s.movingImageDerivativeScales := by
  unfold inspectTransform
  split
  · simp
  · split
    · simp [SetGridSize]
    · split
      · simp
      · dsimp only
        split
        · split <;> simp [SetGridSize, SetTransformIsStackTransform]
        · simp [SetTransformIsStackTransform]

/-- The grid size after the casts depends on the grid size before them only. -/
theorem inspectTransform_gridSize_congr (tr : ElxTransformBase F) (s t : MetricParameters F M)
    (h : s.gridSize = t.gridSize) :
    (inspectTransform tr s).gridSize = (inspectTransform tr t).gridSize := by
  unfold inspectTransform
  split
  · exact h
  · split
    · simp [SetGridSize]
    · split
      · exact h
      · dsimp only
        split
        · split <;> simp [SetGridSize, SetTransformIsStackTransform, h]
        · simp [SetTransformIsStackTransform, h]

/-- The stack flag after the casts depends on the stack flag before them only. -/
theorem inspectTransform_isStackTransform_congr (tr : ElxTransformBase F)
    (s t : MetricParameters F M) (h : s.isStackTransform = t.isStackTransform) :
    (inspectTransform tr s).isStackTransform = (inspectTransform tr t).isStackTransform := by
  unfold inspectTransform
  split
  · exact h
  · split
    · simp [SetGridSize, h]
    · split
      · exact h
      · dsimp only
        split
        · split <;> simp [SetGridSize, SetTransformIsStackTransform]
        · simp [SetTransformIsStackTransform]

/-- The grid size after the call is decided by the casts on the transform and the
grid size before the call. -/
theorem BeforeEachResolution_gridSize (host : Host F M) (s : MetricParameters F M) :
    (BeforeEachResolution host s).params.gridSize =
      (inspectTransform host.elxTransformBase s).gridSize := by
  unfold BeforeEachResolution
  dsimp only
  apply inspectTransform_gridSize_congr
  split <;> rfl

/-- The stack flag after the call is decided by the casts on the transform and the
stack flag before the call. -/
theorem BeforeEachResolution_isStackTransform (host : Host F M) (s : MetricParameters F M) :
    (BeforeEachResolution host s).params.isStackTransform =
      (inspectTransform host.elxTransformBase s).isStackTransform := by
  unfold BeforeEachResolution
  dsimp only
  apply inspectTransform_isStackTransform_congr
  split <;> rfl

/-- One pass of the loop keeps `usescales` true exactly when it was true and the
read for this axis finds a value. -/
theorem scalesBody_usescales (cfg : Configuration) (label : String) (st : ScalesLoop M)
    (i : Fin M) :
    (scalesBody cfg label st i).usescales = true ↔
      st.usescales = true ∧ cfg.doubles.found (scalesCall label i.val) = true := by
  unfold scalesBody
  by_cases hu : st.usescales = true
  · simp [hu, ReadParameter]
  · simp [hu]

/-- After `n` passes `usescales` is true exactly when it was true at the start and
each of the axes `0, ..., n - 1` has a value. -/
theorem scalesLoop_usescales (cfg : Configuration) (label : String) (st : ScalesLoop M) :
    ∀ (n : Nat) (h : n ≤ M),
      (scalesLoop cfg label st n h).usescales = true ↔
        st.usescales = true ∧
          ∀ i : Fin M, i.val < n → cfg.doubles.found (scalesCall label i.val) = true := by
  intro n
  induction n with
  | zero =>
    intro h
    simp [scalesLoop]
  | succ n ih =>
    intro h
    rw [scalesLoop, scalesBody_usescales, ih (Nat.le_of_succ_le h)]
    constructor
    · rintro ⟨⟨h0, hall⟩, hn⟩
      refine ⟨h0, fun i hi => ?_⟩
      rcases Nat.lt_succ_iff_lt_or_eq.mp hi with hlt | heq
      · exact hall i hlt
      · rw [heq]; exact hn
    · rintro ⟨h0, hall⟩
      exact ⟨⟨h0, fun i hi => hall i (Nat.lt_succ_of_lt hi)⟩, hall ⟨n, h⟩ (Nat.lt_succ_self n)⟩

/-- While `usescales` is true after `n` passes, the local array holds what the reads
stored on the axes below `n`, and its initial content on the other axes. -/
theorem scalesLoop_get (cfg : Configuration) (label : String) (st : ScalesLoop M) :
    ∀ (n : Nat) (h : n ≤ M), (scalesLoop cfg label st n h).usescales = true →
      ∀ j : Fin M, (scalesLoop cfg label st n h).movingImageDerivativeScales.get j =
        if j.val < n then
          cfg.doubles.store (scalesCall label j.val) (st.movingImageDerivativeScales.get j)
        else st.movingImageDerivativeScales.get j := by
  intro n
  induction n with
  | zero =>
    intro h _ j
    simp [scalesLoop]
  | succ n ih =>
    intro h hu j
    have hprev : (scalesLoop cfg label st n (Nat.le_of_succ_le h)).usescales = true := by
      rw [scalesLoop, scalesBody_usescales] at hu
      exact hu.1
    have ihj := ih (Nat.le_of_succ_le h) hprev
    rw [scalesLoop]
    unfold scalesBody
    rw [if_pos hprev]
    dsimp only [ReadParameter]
    by_cases hjn : j.val = n
    · have hj : j = ⟨n, h⟩ := Fin.ext hjn
      subst hj
      rw [FixedArray.get_set_same, ihj ⟨n, h⟩]
      simp
    · rw [FixedArray.get_set_ne _ _ _ _ (fun e => hjn e.symm), ihj j]
      by_cases hlt : j.val < n
      · simp [hlt, Nat.lt_succ_of_lt hlt]
      · have : ¬ j.val < n + 1 := fun hc =>
          (Nat.lt_succ_iff_lt_or_eq.mp hc).elim hlt hjn
        simp [hlt, this]

/-- The loop only appends reads of the key `MovingImageDerivativeScales` to the
trace. -/
theorem scalesLoop_reads (cfg : Configuration) (label : String) (st : ScalesLoop M) :
    ∀ (n : Nat) (h : n ≤ M), ∃ extra : List ReadCall,
      (scalesLoop cfg label st n h).reads = st.reads ++ extra ∧
        ∀ c ∈ extra, c = scalesCall label c.axisIndex := by
  intro n
  induction n with
  | zero =>
    intro h
    exact ⟨[], by simp [scalesLoop]⟩
  | succ n ih =>
    intro h
    obtain ⟨extra, he, hk⟩ := ih (Nat.le_of_succ_le h)
    rw [scalesLoop]
    unfold scalesBody
    split
    · refine ⟨extra ++ [scalesCall label n], ?_, ?_⟩
      · simp [he]
      · intro c hc
        rcases List.mem_append.mp hc with h1 | h1
        · exact hk c h1
        · rw [List.mem_singleton.mp h1]; rfl
    · exact ⟨extra, he, hk⟩

/-- The fields of the result that the configuration decides. -/
theorem BeforeEachResolution_read_fields (host : Host F M) (s : MetricParameters F M) :
    (BeforeEachResolution host s).params.subtractMean =
        host.configuration.bools.store
          ⟨"SubtractMean", host.componentLabel, 0, 0, defaultLenient⟩ false ∧
    (BeforeEachResolution host s).params.numAdditionalSamplesFixed =
        host.configuration.uints.store
          ⟨"NumAdditionalSamplesFixed", host.componentLabel, host.currentLevel, 0,
            defaultLenient⟩ 0 ∧
    (BeforeEachResolution host s).params.reducedDimensionIndex =
        host.configuration.uints.store
          ⟨"ReducedDimensionIndex", host.componentLabel, 0, 0, defaultLenient⟩ 0 := by
  unfold BeforeEachResolution
  dsimp only
  refine ⟨?_, ?_, ?_⟩
  · rw [(inspectTransform_frame _ _).1]
    split <;> rfl
  · rw [(inspectTransform_frame _ _).2.1]
    split <;> rfl
  · rw [(inspectTransform_frame _ _).2.2.1]
    split <;> rfl

/-- The flag after the call is the value of `usescales` after the loop. -/
theorem BeforeEachResolution_useScales (host : Host F M) (s : MetricParameters F M) :
    (BeforeEachResolution host s).params.useMovingImageDerivativeScales = true ↔
      ∀ i : Fin M,
        host.configuration.doubles.found (scalesCall host.componentLabel i.val) = true := by
  unfold BeforeEachResolution
  dsimp only
  rw [(inspectTransform_frame _ _).2.2.2.1]
  have hloop := scalesLoop_usescales host.configuration host.componentLabel
    ⟨true, host.uninitialised,
      [⟨"SubtractMean", host.componentLabel, 0, 0, defaultLenient⟩,
       ⟨"NumAdditionalSamplesFixed", host.componentLabel, host.currentLevel, 0, defaultLenient⟩,
       ⟨"ReducedDimensionIndex", host.componentLabel, 0, 0, defaultLenient⟩]⟩ M (Nat.le_refl M)
  split
  · rename_i hu
    simp only [SetMovingImageDerivativeScales, SetUseMovingImageDerivativeScales, true_iff]
    intro i
    exact (hloop.mp hu).2 i i.isLt
  · rename_i hu
    simp only [SetUseMovingImageDerivativeScales]
    constructor
    · intro hc; cases hc
    · intro hall
      exact absurd (hloop.mpr ⟨rfl, fun i _ => hall i⟩) hu

/-- The stored array after the call: what the reads stored when every axis has a
value, the array of before the call otherwise. -/
theorem BeforeEachResolution_scales (host : Host F M) (s : MetricParameters F M) :
    ((∀ i : Fin M,
        host.configuration.doubles.found (scalesCall host.componentLabel i.val) = true) →
      ∀ i : Fin M, (BeforeEachResolution host s).params.movingImageDerivativeScales.get i =
        host.configuration.doubles.store (scalesCall host.componentLabel i.val)
          (host.uninitialised.get i)) ∧
    ((∃ i : Fin M,
        host.configuration.doubles.found (scalesCall host.componentLabel i.val) = false) →
      (BeforeEachResolution host s).params.movingImageDerivativeScales =
        s.movingImageDerivativeScales) := by
  have hloop := scalesLoop_usescales host.configuration host.componentLabel
    ⟨true, host.uninitialised,
      [⟨"SubtractMean", host.componentLabel, 0, 0, defaultLenient⟩,
       ⟨"NumAdditionalSamplesFixed", host.componentLabel, host.currentLevel, 0, defaultLenient⟩,
       ⟨"ReducedDimensionIndex", host.componentLabel, 0, 0, defaultLenient⟩]⟩ M (Nat.le_refl M)
  have hget := scalesLoop_get host.configuration host.componentLabel
    ⟨true, host.uninitialised,
      [⟨"SubtractMean", host.componentLabel, 0, 0, defaultLenient⟩,
       ⟨"NumAdditionalSamplesFixed", host.componentLabel, host.currentLevel, 0, defaultLenient⟩,
       ⟨"ReducedDimensionIndex", host.componentLabel, 0, 0, defaultLenient⟩]⟩ M (Nat.le_refl M)
  constructor
  · intro hall i
    have hu := hloop.mpr ⟨rfl, fun i _ => hall i⟩
    unfold BeforeEachResolution
    dsimp only
    rw [(inspectTransform_frame _ _).2.2.2.2, if_pos hu]
    simp only [SetMovingImageDerivativeScales]
    rw [hget hu i, if_pos i.isLt]
  · rintro ⟨i, hi⟩
    have hu : ¬ (scalesLoop host.configuration host.componentLabel
        ⟨true, host.uninitialised,
          [⟨"SubtractMean", host.componentLabel, 0, 0, defaultLenient⟩,
           ⟨"NumAdditionalSamplesFixed", host.componentLabel, host.currentLevel, 0,
             defaultLenient⟩,
           ⟨"ReducedDimensionIndex", host.componentLabel, 0, 0, defaultLenient⟩]⟩
        M (Nat.le_refl M)).usescales = true := by
      intro hc
      have := (hloop.mp hc).2 i i.isLt
      rw [hi] at this
      cases this
    unfold BeforeEachResolution
    dsimp only
    rw [(inspectTransform_frame _ _).2.2.2.2, if_neg hu]
    rfl

/-- The trace of the call: the three scalar reads, then reads issued by the loop. -/
theorem BeforeEachResolution_reads (host : Host F M) (s : MetricParameters F M) :
    ∃ extra : List ReadCall,
      (BeforeEachResolution host s).reads =
        [⟨"SubtractMean", host.componentLabel, 0, 0, defaultLenient⟩,
         ⟨"NumAdditionalSamplesFixed", host.componentLabel, host.currentLevel, 0,
           defaultLenient⟩,
         ⟨"ReducedDimensionIndex", host.componentLabel, 0, 0, defaultLenient⟩] ++ extra ∧
      ∀ c ∈ extra, c = scalesCall host.componentLabel c.axisIndex := by
  unfold BeforeEachResolution
  dsimp only
  exact scalesLoop_reads host.configuration host.componentLabel _ M (Nat.le_refl M)

/-- Two records with the same seven fields are the same record. -/
theorem MetricParameters.eq_of_fields (a b : MetricParameters F M)
    (h1 : a.subtractMean = b.subtractMean)
    (h2 : a.numAdditionalSamplesFixed = b.numAdditionalSamplesFixed)
    (h3 : a.reducedDimensionIndex = b.reducedDimensionIndex)
    (h4 : a.useMovingImageDerivativeScales = b.useMovingImageDerivativeScales)
    (h5 : a.movingImageDerivativeScales = b.movingImageDerivativeScales)
    (h6 : a.isStackTransform = b.isStackTransform)
    (h7 : a.gridSize = b.gridSize) : a = b := by
  cases a
  cases b
  simp only at h1 h2 h3 h4 h5 h6 h7
  subst h1 h2 h3 h4 h5 h6 h7
  rfl

/-- Going through the casts a second time changes nothing. -/
theorem inspectTransform_idem (tr : ElxTransformBase F) (s : MetricParameters F M) :
    inspectTransform tr (inspectTransform tr s) = inspectTransform tr s := by
  cases hc : tr.asCombinationTransform with
  | none => simp only [inspectTransform, hc]
  | some c =>
    cases hb : c.GetCurrentTransform.asBSplineTransformBase with
    | some b =>
      simp only [inspectTransform, hc, hb]
      rfl
    | none =>
      cases hs : c.GetCurrentTransform.asStackTransform with
      | none => simp only [inspectTransform, hc, hb, hs]
      | some st =>
        by_cases hN : st.GetNumberOfSubTransforms > 0
        · cases h0 : (st.GetSubTransform 0).bind
              SubTransform.asReducedDimensionBSplineTransformBase with
          | none =>
            simp only [inspectTransform, hc, hb, hs, if_pos hN, h0]
            rfl
          | some rd =>
            simp only [inspectTransform, hc, hb, hs, if_pos hN, h0]
            rfl
        · simp only [inspectTransform, hc, hb, hs, if_neg hN]
          rfl

/-- The casts never clear the stack flag. -/
theorem inspectTransform_isStackTransform_mono (tr : ElxTransformBase F)
    (s : MetricParameters F M) (h : s.isStackTransform = true) :
    (inspectTransform tr s).isStackTransform = true := by
  unfold inspectTransform
  split
  · exact h
  · split
    · exact h
    · split
      · exact h
      · dsimp only
        split
        · split <;> rfl
        · rfl

/-- As long as every axis so far has a value, the loop has issued one read per
axis, in ascending order. -/
theorem scalesLoop_reads_all (cfg : Configuration) (label : String) (st : ScalesLoop M)
    (hst : st.usescales = true) :
    ∀ (n : Nat) (h : n ≤ M),
      (∀ i : Fin M, i.val < n → cfg.doubles.found (scalesCall label i.val) = true) →
      (scalesLoop cfg label st n h).reads = st.reads ++ (List.range n).map (scalesCall label) := by
  intro n
  induction n with
  | zero => intro h _; simp [scalesLoop]
  | succ n ih =>
    intro h hall
    have hprev : ∀ i : Fin M, i.val < n → cfg.doubles.found (scalesCall label i.val) = true :=
      fun i hi => hall i (Nat.lt_succ_of_lt hi)
    have hu := (scalesLoop_usescales cfg label st n (Nat.le_of_succ_le h)).mpr ⟨hst, hprev⟩
    rw [scalesLoop]
    unfold scalesBody
    rw [if_pos hu]
    simp only [ih (Nat.le_of_succ_le h) hprev, List.range_succ, List.map_append, List.map_cons,
      List.map_nil, List.append_assoc]

/-- Once `usescales` is false, further passes leave the loop variables as they are. -/
theorem scalesLoop_frozen (cfg : Configuration) (label : String) (st : ScalesLoop M)
    (k : Nat) (hk : k ≤ M) (hf : (scalesLoop cfg label st k hk).usescales = false) :
    ∀ (n : Nat) (h : n ≤ M), k ≤ n → scalesLoop cfg label st n h = scalesLoop cfg label st k hk := by
  intro n
  induction n with
  | zero =>
    intro h hkn
    have : k = 0 := Nat.le_zero.mp hkn
    subst this
    rfl
  | succ n ih =>
    intro h hkn
    rcases Nat.lt_or_ge k (n + 1) with hlt | hge
    · have hle : k ≤ n := Nat.lt_succ_iff.mp hlt
      rw [scalesLoop, ih (Nat.le_of_succ_le h) hle]
      unfold scalesBody
      rw [hf]
      rfl
    · have : k = n + 1 := Nat.le_antisymm hkn hge
      subst this
      rfl

/-- When axis `k` is the first without a value, the loop has issued the reads of the
axes `0, ..., k` and no other. -/
theorem scalesLoop_reads_stop (cfg : Configuration) (label : String) (st : ScalesLoop M)
    (hst : st.usescales = true) (k : Fin M)
    (hbefore : ∀ i : Fin M, i.val < k.val → cfg.doubles.found (scalesCall label i.val) = true)
    (hk : cfg.doubles.found (scalesCall label k.val) = false) :
    (scalesLoop cfg label st M (Nat.le_refl M)).reads =
      st.reads ++ (List.range (k.val + 1)).map (scalesCall label) := by
  have hfalse : (scalesLoop cfg label st (k.val + 1) k.isLt).usescales = false := by
    cases hc : (scalesLoop cfg label st (k.val + 1) k.isLt).usescales
    · rfl
    · have := ((scalesLoop_usescales cfg label st (k.val + 1) k.isLt).mp hc).2 k
        (Nat.lt_succ_self _)
      rw [hk] at this
      cases this
  rw [scalesLoop_frozen cfg label st (k.val + 1) k.isLt hfalse M (Nat.le_refl M) k.isLt]
  have hu := (scalesLoop_usescales cfg label st k.val (Nat.le_of_lt k.isLt)).mpr ⟨hst, hbefore⟩
  rw [scalesLoop]
  unfold scalesBody
  rw [if_pos hu]
  simp only [scalesLoop_reads_all cfg label st hst k.val (Nat.le_of_lt k.isLt) hbefore,
    List.range_succ, List.map_append, List.map_cons, List.map_nil, List.append_assoc]

/-- The stack flag after the call is the flag of before the call unless the casts
reach the stack branch. -/
theorem inspectTransform_isStackTransform_retained (tr : ElxTransformBase F)
    (s : MetricParameters F M)
    (h : ¬ ∃ (c : CombinationTransform F) (st : StackTransform),
      tr.asCombinationTransform = some c ∧
      c.GetCurrentTransform.asBSplineTransformBase = none ∧
      c.GetCurrentTransform.asStackTransform = some st) :
    (inspectTransform tr s).isStackTransform = s.isStackTransform := by
  cases hc : tr.asCombinationTransform with
  | none => simp only [inspectTransform, hc]
  | some c =>
    cases hb : c.GetCurrentTransform.asBSplineTransformBase with
    | some b =>
      simp only [inspectTransform, hc, hb]
      rfl
    | none =>
      cases hs : c.GetCurrentTransform.asStackTransform with
      | none => simp only [inspectTransform, hc, hb, hs]
      | some st => exact absurd ⟨c, st, hc, hb, hs⟩ h

/-- A second call, with any content `u` of the uninitialised local array, leaves
the member variables as the first call left them, provided `u` is the content of
the first call or the reader of the scales overwrites its slot when it finds a
value. -/
theorem BeforeEachResolution_twice (host : Host F M) (s : MetricParameters F M)
    (u : FixedArray Double M)
    (h : u = host.uninitialised ∨ host.configuration.doubles.OverwritesWhenFound) :
    (BeforeEachResolution
        ⟨host.configuration, host.componentLabel, host.currentLevel, host.elxTransformBase, u⟩
        (BeforeEachResolution host s).params).params =
      (BeforeEachResolution host s).params := by
  have f1 := BeforeEachResolution_read_fields host s
  have f2 := BeforeEachResolution_read_fields
    (⟨host.configuration, host.componentLabel, host.currentLevel, host.elxTransformBase, u⟩ :
      Host F M) (BeforeEachResolution host s).params
  have g1 := BeforeEachResolution_useScales host s
  have g2 := BeforeEachResolution_useScales
    (⟨host.configuration, host.componentLabel, host.currentLevel, host.elxTransformBase, u⟩ :
      Host F M) (BeforeEachResolution host s).params
  have k1 := BeforeEachResolution_scales host s
  have k2 := BeforeEachResolution_scales
    (⟨host.configuration, host.componentLabel, host.currentLevel, host.elxTransformBase, u⟩ :
      Host F M) (BeforeEachResolution host s).params
  apply MetricParameters.eq_of_fields
  · exact f2.1.trans f1.1.symm
  · exact f2.2.1.trans f1.2.1.symm
  · exact f2.2.2.trans f1.2.2.symm
  · exact Bool.eq_iff_iff.mpr (g2.trans g1.symm)
  · by_cases hall : ∀ i : Fin M,
        host.configuration.doubles.found (scalesCall host.componentLabel i.val) = true
    · apply FixedArray.ext_get
      intro i
      rw [k2.1 hall i, k1.1 hall i]
      rcases h with h | h
      · rw [h]
      · exact h _ _ _ (hall i)
    · have hex : ∃ i : Fin M,
          host.configuration.doubles.found (scalesCall host.componentLabel i.val) = false := by
        by_contra hne
        apply hall
        intro i
        cases hf : host.configuration.doubles.found (scalesCall host.componentLabel i.val)
        · exact absurd ⟨i, hf⟩ hne
        · rfl
      exact k2.2 hex
  · rw [BeforeEachResolution_isStackTransform,
      inspectTransform_isStackTransform_congr _ _ (inspectTransform host.elxTransformBase s)
        (BeforeEachResolution_isStackTransform host s),
      inspectTransform_idem, BeforeEachResolution_isStackTransform host s]
  · rw [BeforeEachResolution_gridSize,
      inspectTransform_gridSize_congr _ _ (inspectTransform host.elxTransformBase s)
        (BeforeEachResolution_gridSize host s),
      inspectTransform_idem, BeforeEachResolution_gridSize host s]

/-- A stack flag that is true stays true through any sequence of levels. -/
theorem runResolutions_isStackTransform_mono (hosts : List (Host F M)) :
    ∀ s : MetricParameters F M, s.isStackTransform = true →
      (runResolutions hosts s).isStackTransform = true := by
  induction hosts with
  | nil => intro s h; exact h
  | cons host rest ih =>
    intro s h
    unfold runResolutions
    rw [List.foldl_cons]
    apply ih
    rw [BeforeEachResolution_isStackTransform]
    exact inspectTransform_isStackTransform_mono _ _ h

end Facts

namespace BaseComponent

theorem digitValue_digitChar (d : Nat) (h : d < 10) : digitValue (digitChar d) = some d := by
  interval_cases d <;> rfl

theorem digitChar_ne_zero (d : Nat) (h0 : 0 < d) : digitChar d ≠ '0' := by
  match d, h0 with
  | 1, _ => decide
  | 2, _ => decide
  | 3, _ => decide
  | 4, _ => decide
  | 5, _ => decide
  | 6, _ => decide
  | 7, _ => decide
  | 8, _ => decide
  | _ + 9, _ => simp [digitChar]

theorem digitChar_ne_minus (d : Nat) : digitChar d ≠ '-' := by
  match d with
  | 0 => decide
  | 1 => decide
  | 2 => decide
  | 3 => decide
  | 4 => decide
  | 5 => decide
  | 6 => decide
  | 7 => decide
  | 8 => decide
  | _ + 9 => simp [digitChar]

/-- Reading a concatenation: read the first part, then go on with the second. -/
theorem parseDigitsFrom_append (l1 l2 : List Char) :
    ∀ acc : Nat, parseDigitsFrom acc (l1 ++ l2) =
      (parseDigitsFrom acc l1).bind (fun v => parseDigitsFrom v l2) := by
  induction l1 with
  | nil => intro acc; rfl
  | cons c cs ih =>
    intro acc
    simp only [List.cons_append, parseDigitsFrom]
    cases digitValue c with
    | none => rfl
    | some d => exact ih _

/-- Reading the digits of `n` gives `n`. -/
theorem parseDigitsFrom_decimalDigits :
    ∀ (fuel n : Nat), n < fuel → parseDigitsFrom 0 (decimalDigits fuel n) = some n := by
  intro fuel
  induction fuel with
  | zero => intro n h; omega
  | succ fuel ih =>
    intro n h
    unfold decimalDigits
    by_cases h10 : n < 10
    · rw [if_pos h10]
      simp [parseDigitsFrom, digitValue_digitChar n h10]
    · rw [if_neg h10, parseDigitsFrom_append, ih (n / 10) (by omega)]
      have hm : n % 10 < 10 := Nat.mod_lt _ (by decide)
      simp only [Option.some_bind, parseDigitsFrom, digitValue_digitChar _ hm]
      congr 1
      omega

/-- The digits of a number start with a digit character: there is one at least, it is
not the sign, and it is not `0` unless the number is zero. -/
theorem decimalDigits_head :
    ∀ (fuel n : Nat), n < fuel → ∃ (c : Char) (cs : List Char),
      decimalDigits fuel n = c :: cs ∧ c ≠ '-' ∧ (0 < n → c ≠ '0') := by
  intro fuel
  induction fuel with
  | zero => intro n h; omega
  | succ fuel ih =>
    intro n h
    unfold decimalDigits
    by_cases h10 : n < 10
    · rw [if_pos h10]
      exact ⟨digitChar n, [], rfl, digitChar_ne_minus n, fun h0 => digitChar_ne_zero n h0⟩
    · rw [if_neg h10]
      obtain ⟨c, cs, hd, hm, hz⟩ := ih (n / 10) (by omega)
      refine ⟨c, cs ++ [digitChar (n % 10)], ?_, hm, fun _ => hz (by omega)⟩
      rw [hd]
      rfl

/-- Reading a text that does not start with the sign. -/
theorem parseInteger_unsigned (c : Char) (cs : List Char) (hc : c ≠ '-') :
    parseInteger (String.mk (c :: cs)) = (parseDigitsFrom 0 (c :: cs)).map Int.ofNat := by
  unfold parseInteger
  split
  · rename_i h; cases h
  · rename_i h; cases h; exact absurd rfl hc
  · rename_i h; cases h; exact absurd rfl hc
  · rfl

/-- Reading a text that starts with the sign and goes on. -/
theorem parseInteger_signed (c : Char) (cs : List Char) :
    parseInteger (String.mk ('-' :: c :: cs)) =
      (parseDigitsFrom 0 (c :: cs)).map (fun v => -(Int.ofNat v)) := by
  unfold parseInteger
  split
  · rename_i h; cases h
  · rename_i h; cases h
  · rename_i h; cases h; rfl
  · rename_i h1 h2 h3
    exact absurd rfl (h3 (c :: cs))

/-- Reading the text of an integer gives the integer back. -/
theorem parseInteger_ToStringInteger (n : Int) : parseInteger (ToStringInteger n) = some n := by
  obtain ⟨c, cs, hd, hm, -⟩ := decimalDigits_head (n.natAbs + 1) n.natAbs (Nat.lt_succ_self _)
  have hp := parseDigitsFrom_decimalDigits (n.natAbs + 1) n.natAbs (Nat.lt_succ_self _)
  unfold ToStringInteger
  by_cases hn : n < 0
  · rw [if_pos hn, hd, parseInteger_signed, ← hd, hp]
    simp only [Option.map_some', Int.ofNat_eq_coe, Option.some.injEq]
    omega
  · rw [if_neg hn, hd, parseInteger_unsigned c cs hm, ← hd, hp]
    simp only [Option.map_some', Int.ofNat_eq_coe, Option.some.injEq]
    omega

/-- The number of texts of a matrix given by its rows. -/
theorem length_flatMap_rows {α : Type} {C : Nat} (f : α → String) :
    ∀ rows : List (FixedArray α C),
      (rows.flatMap (fun row => row.data.map f)).length = rows.length * C := by
  intro rows
  induction rows with
  | nil => simp
  | cons r rs ih =>
    rw [List.flatMap_cons, List.length_append, ih, List.length_map, r.size_eq,
      List.length_cons, Nat.succ_mul, Nat.add_comm]

/-- The text at position `i * C + j` of a matrix given by its rows is the text of
element `j` of row `i`. -/
theorem getElem?_flatMap_rows {α : Type} {C : Nat} (f : α → String) :
    ∀ (rows : List (FixedArray α C)) (i j : Nat), j < C →
      (rows.flatMap (fun row => row.data.map f))[i * C + j]? =
        (rows[i]?).bind (fun row => (row.data[j]?).map f) := by
  intro rows
  induction rows with
  | nil => intro i j _; simp
  | cons r rs ih =>
    intro i j hj
    rw [List.flatMap_cons]
    cases i with
    | zero =>
      have hlt : 0 * C + j < (r.data.map f).length := by
        rw [List.length_map, r.size_eq]; omega
      rw [List.getElem?_append_left hlt]
      simp
    | succ i =>
      have hge : (r.data.map f).length ≤ (i + 1) * C + j := by
        rw [List.length_map, r.size_eq, Nat.succ_mul]; omega
      rw [List.getElem?_append_right hge]
      have hidx : (i + 1) * C + j - (r.data.map f).length = i * C + j := by
        rw [List.length_map, r.size_eq, Nat.succ_mul]; omega
      rw [hidx, ih i j hj]
      simp

end BaseComponent

/-! ## Properties of the component -/

section Claims
variable {F M : Nat}

/-- C1: for every configuration, level and previous state, after
`BeforeEachResolution` the flag `useMovingImageDerivativeScales` is true if and only
if the configuration has a value for `MovingImageDerivativeScales` at every axis
`0, ..., M - 1`; the flag does not depend on the previous state, and one missing
axis gives false. -/
theorem useMovingImageDerivativeScales_iff_every_axis (host : Host F M)
    (s t : MetricParameters F M) :
    ((BeforeEachResolution host s).params.useMovingImageDerivativeScales = true ↔
      ∀ i : Fin M,
        host.configuration.doubles.found (scalesCall host.componentLabel i.val) = true) ∧
    (BeforeEachResolution host s).params.useMovingImageDerivativeScales =
      (BeforeEachResolution host t).params.useMovingImageDerivativeScales ∧
    ∀ i : Fin M,
      host.configuration.doubles.found (scalesCall host.componentLabel i.val) = false →
        (BeforeEachResolution host s).params.useMovingImageDerivativeScales = false := by
  refine ⟨BeforeEachResolution_useScales host s, ?_, ?_⟩
  · have hs := BeforeEachResolution_useScales host s
    have ht := BeforeEachResolution_useScales host t
    cases h1 : (BeforeEachResolution host s).params.useMovingImageDerivativeScales <;>
      cases h2 : (BeforeEachResolution host t).params.useMovingImageDerivativeScales
    · rfl
    · exact absurd (hs.mpr (ht.mp h2)) (by simp [h1])
    · exact absurd (ht.mpr (hs.mp h1)) (by simp [h2])
    · rfl
  · intro i hi
    cases h1 : (BeforeEachResolution host s).params.useMovingImageDerivativeScales
    · rfl
    · have := (BeforeEachResolution_useScales host s).mp h1 i
      rw [hi] at this
      cases this

/-- C1 at a sample input: three axes, the configuration has values for the axes 0
and 1 only, the flag was true before the call. -/
theorem useMovingImageDerivativeScales_iff_every_axis_witness :
    sampleConfiguration.doubles.found (scalesCall "Metric" 2) = false ∧
    (BeforeEachResolution (sampleHost 2 3 sampleConfiguration 1 (plainTransform 2))
      (sampleParameters 2 3)).params.useMovingImageDerivativeScales = false :=
  ⟨by decide,
   (useMovingImageDerivativeScales_iff_every_axis
      (sampleHost 2 3 sampleConfiguration 1 (plainTransform 2))
      (sampleParameters 2 3) (sampleParameters 2 3)).2.2 ⟨2, by decide⟩ (by decide)⟩

/-- C2: when the transform is a combination transform whose current transform is a
stack transform and not a B-spline transform, with `N >= 1` sub-transforms of which
the first is a reduced-dimension B-spline transform, then after `BeforeEachResolution`
every axis of `gridSize` equals `N` and `isStackTransform` is true, whatever the
previous grid size and the grid of the sub-transform. -/
theorem stack_of_reduced_bspline_gridSize (host : Host F M) (s : MetricParameters F M)
    (c : CombinationTransform F) (st : StackTransform)
    (rd : ReducedDimensionBSplineTransformBase)
    (hc : host.elxTransformBase.asCombinationTransform = some c)
    (hb : c.GetCurrentTransform.asBSplineTransformBase = none)
    (hs : c.GetCurrentTransform.asStackTransform = some st)
    (hN : 1 ≤ st.GetNumberOfSubTransforms)
    (h0 : (st.GetSubTransform 0).bind SubTransform.asReducedDimensionBSplineTransformBase =
      some rd) :
    (∀ i : Fin F, (BeforeEachResolution host s).params.gridSize.get i =
      st.GetNumberOfSubTransforms) ∧
    (BeforeEachResolution host s).params.gridSize.data =
      List.replicate F st.GetNumberOfSubTransforms ∧
    (BeforeEachResolution host s).params.isStackTransform = true := by
  rw [BeforeEachResolution_gridSize, BeforeEachResolution_isStackTransform]
  unfold inspectTransform
  simp only [hc, hb, hs, h0]
  have hpos : st.GetNumberOfSubTransforms > 0 := hN
  rw [if_pos hpos]
  exact ⟨fun i => FixedArray.get_Fill _ _ i, rfl, rfl⟩

/-- C2 at a sample input: a stack of three sub-transforms, the first a
reduced-dimension B-spline transform whose own grid is `[4]`. -/
theorem stack_of_reduced_bspline_gridSize_witness :
    (∀ i : Fin 2, (BeforeEachResolution
        (sampleHost 2 2 emptyConfiguration 0
          (stackTransform 2 [reducedBSplineSub, otherSub, otherSub]))
        (sampleParameters 2 2)).params.gridSize.get i = 3) ∧
    (BeforeEachResolution
        (sampleHost 2 2 emptyConfiguration 0
          (stackTransform 2 [reducedBSplineSub, otherSub, otherSub]))
        (sampleParameters 2 2)).params.gridSize.data = [3, 3] ∧
    (BeforeEachResolution
        (sampleHost 2 2 emptyConfiguration 0
          (stackTransform 2 [reducedBSplineSub, otherSub, otherSub]))
        (sampleParameters 2 2)).params.isStackTransform = true :=
  stack_of_reduced_bspline_gridSize
    (sampleHost 2 2 emptyConfiguration 0
      (stackTransform 2 [reducedBSplineSub, otherSub, otherSub]))
    (sampleParameters 2 2) ⟨⟨none, some ⟨[reducedBSplineSub, otherSub, otherSub]⟩⟩⟩
    ⟨[reducedBSplineSub, otherSub, otherSub]⟩ ⟨[4]⟩ rfl rfl rfl (by decide) rfl

/-- C3: `BeforeEachResolution` leaves `gridSize` as it was when the transform is not
a combination transform, and when it is one whose current transform is not a
B-spline transform and is either no stack transform, or a stack without
sub-transforms, or a stack whose sub-transform 0 is not a reduced-dimension
B-spline transform. -/
theorem gridSize_retained (host : Host F M) (s : MetricParameters F M)
    (h : host.elxTransformBase.asCombinationTransform = none ∨
      ∃ c : CombinationTransform F,
        host.elxTransformBase.asCombinationTransform = some c ∧
        c.GetCurrentTransform.asBSplineTransformBase = none ∧
        (c.GetCurrentTransform.asStackTransform = none ∨
          ∃ st : StackTransform, c.GetCurrentTransform.asStackTransform = some st ∧
            (st.GetNumberOfSubTransforms = 0 ∨
              (st.GetSubTransform 0).bind
                SubTransform.asReducedDimensionBSplineTransformBase = none))) :
    (BeforeEachResolution host s).params.gridSize = s.gridSize := by
  rw [BeforeEachResolution_gridSize]
  unfold inspectTransform
  rcases h with h | ⟨c, hc, hb, h | ⟨st, hs, h | h⟩⟩
  · simp only [h]
  · simp only [hc, hb, h]
  · simp only [hc, hb, hs, h]
    rfl
  · simp only [hc, hb, hs, h]
    split <;> rfl

/-- C3 at sample inputs, one for each of the four cases: a plain transform, a
current transform that is neither B-spline nor stack, an empty stack, and a stack
whose sub-transform 0 is not a reduced-dimension B-spline transform. -/
theorem gridSize_retained_witness :
    (BeforeEachResolution (sampleHost 2 2 sampleConfiguration 1 (plainTransform 2))
      (sampleParameters 2 2)).params.gridSize = FixedArray.Fill 2 5 ∧
    (BeforeEachResolution (sampleHost 2 2 sampleConfiguration 1 (otherTransform 2))
      (sampleParameters 2 2)).params.gridSize = FixedArray.Fill 2 5 ∧
    (BeforeEachResolution (sampleHost 2 2 sampleConfiguration 1 (stackTransform 2 []))
      (sampleParameters 2 2)).params.gridSize = FixedArray.Fill 2 5 ∧
    (BeforeEachResolution
      (sampleHost 2 2 sampleConfiguration 1 (stackTransform 2 [otherSub, reducedBSplineSub]))
      (sampleParameters 2 2)).params.gridSize = FixedArray.Fill 2 5 :=
  ⟨gridSize_retained _ _ (Or.inl rfl),
   gridSize_retained _ _ (Or.inr ⟨⟨⟨none, none⟩⟩, rfl, rfl, Or.inl rfl⟩),
   gridSize_retained _ _
     (Or.inr ⟨⟨⟨none, some ⟨[]⟩⟩⟩, rfl, rfl, Or.inr ⟨⟨[]⟩, rfl, Or.inl rfl⟩⟩),
   gridSize_retained _ _
     (Or.inr ⟨⟨⟨none, some ⟨[otherSub, reducedBSplineSub]⟩⟩⟩, rfl, rfl,
       Or.inr ⟨⟨[otherSub, reducedBSplineSub]⟩, rfl, Or.inr rfl⟩⟩)⟩

/-- C4: when the transform is a combination transform whose current transform is a
B-spline transform, then after `BeforeEachResolution` `gridSize` is the size of that
transform's grid region, for every previous grid size. -/
theorem bspline_gridSize (host : Host F M) (s : MetricParameters F M)
    (c : CombinationTransform F) (b : BSplineTransformBase F)
    (hc : host.elxTransformBase.asCombinationTransform = some c)
    (hb : c.GetCurrentTransform.asBSplineTransformBase = some b) :
    (BeforeEachResolution host s).params.gridSize = b.gridRegionSize := by
  rw [BeforeEachResolution_gridSize]
  unfold inspectTransform
  simp only [hc, hb]
  rfl

/-- C4 at a sample input: a B-spline transform with grid region size `(6, 8)`. -/
theorem bspline_gridSize_witness :
    (BeforeEachResolution
      (sampleHost 2 2 emptyConfiguration 0 (bsplineTransform ⟨[6, 8], rfl⟩))
      (sampleParameters 2 2)).params.gridSize = ⟨[6, 8], rfl⟩ :=
  bspline_gridSize
    (sampleHost 2 2 emptyConfiguration 0 (bsplineTransform ⟨[6, 8], rfl⟩))
    (sampleParameters 2 2) ⟨⟨some ⟨⟨[6, 8], rfl⟩⟩, none⟩⟩ ⟨⟨[6, 8], rfl⟩⟩ rfl rfl

/-- C5: when the transform is a combination transform whose current transform is a
stack transform and not a B-spline transform, `isStackTransform` is true after
`BeforeEachResolution`, for every number of sub-transforms (zero included) and
whatever sub-transform 0 is. -/
theorem stack_sets_isStackTransform (host : Host F M) (s : MetricParameters F M)
    (c : CombinationTransform F) (st : StackTransform)
    (hc : host.elxTransformBase.asCombinationTransform = some c)
    (hb : c.GetCurrentTransform.asBSplineTransformBase = none)
    (hs : c.GetCurrentTransform.asStackTransform = some st) :
    (BeforeEachResolution host s).params.isStackTransform = true := by
  rw [BeforeEachResolution_isStackTransform]
  unfold inspectTransform
  simp only [hc, hb, hs]
  split
  · split <;> rfl
  · rfl

/-- C5 at sample inputs: an empty stack, and a stack whose sub-transform 0 is not a
reduced-dimension B-spline transform; the flag was false before the call. -/
theorem stack_sets_isStackTransform_witness :
    (BeforeEachResolution (sampleHost 2 2 emptyConfiguration 0 (stackTransform 2 []))
      (sampleParameters 2 2)).params.isStackTransform = true ∧
    (BeforeEachResolution (sampleHost 2 2 emptyConfiguration 0 (stackTransform 2 [otherSub]))
      (sampleParameters 2 2)).params.isStackTransform = true :=
  ⟨stack_sets_isStackTransform _ _ ⟨⟨none, some ⟨[]⟩⟩⟩ ⟨[]⟩ rfl rfl rfl,
   stack_sets_isStackTransform _ _ ⟨⟨none, some ⟨[otherSub]⟩⟩⟩ ⟨[otherSub]⟩ rfl rfl rfl⟩

/-- C6: no partial array of derivative scales is kept.  When every axis has a value,
the array stored by `BeforeEachResolution` holds, axis by axis, what the
configuration put into the slot of that axis; when an axis is missing, the stored
array is the one of before the call, even if the reads of earlier axes found a
value. -/
theorem movingImageDerivativeScales_all_or_nothing (host : Host F M)
    (s : MetricParameters F M) :
    ((∀ i : Fin M,
        host.configuration.doubles.found (scalesCall host.componentLabel i.val) = true) →
      ∀ i : Fin M, (BeforeEachResolution host s).params.movingImageDerivativeScales.get i =
        (ReadParameter host.configuration.doubles (host.uninitialised.get i)
          (scalesCall host.componentLabel i.val)).2) ∧
    ((∃ i : Fin M,
        host.configuration.doubles.found (scalesCall host.componentLabel i.val) = false) →
      (BeforeEachResolution host s).params.movingImageDerivativeScales =
        s.movingImageDerivativeScales) :=
  BeforeEachResolution_scales host s

/-- C6 at sample inputs: with two axes both reads find a value and the stored array
holds the two values; with three axes the third read finds nothing and the stored
array is the previous one, although the first two reads found a value. -/
theorem movingImageDerivativeScales_all_or_nothing_witness :
    (∀ i : Fin 2, sampleConfiguration.doubles.found (scalesCall "Metric" i.val) = true) ∧
    (∀ i : Fin 2,
      (BeforeEachResolution (sampleHost 2 2 sampleConfiguration 1 (plainTransform 2))
        (sampleParameters 2 2)).params.movingImageDerivativeScales.get i =
      (⟨100 + i.val⟩ : Double)) ∧
    sampleConfiguration.doubles.found (scalesCall "Metric" 0) = true ∧
    sampleConfiguration.doubles.found (scalesCall "Metric" 2) = false ∧
    (BeforeEachResolution (sampleHost 2 3 sampleConfiguration 1 (plainTransform 2))
      (sampleParameters 2 3)).params.movingImageDerivativeScales =
      FixedArray.Fill 3 ⟨9⟩ :=
  ⟨by decide,
   fun i => ((movingImageDerivativeScales_all_or_nothing
      (sampleHost 2 2 sampleConfiguration 1 (plainTransform 2))
      (sampleParameters 2 2)).1 (by decide) i).trans (by revert i; decide),
   by decide, by decide,
   (movingImageDerivativeScales_all_or_nothing
      (sampleHost 2 3 sampleConfiguration 1 (plainTransform 2))
      (sampleParameters 2 3)).2 ⟨⟨2, by decide⟩, by decide⟩⟩

/-- C7: missing configuration is no error.  With readers that leave the slot
untouched when they find nothing, `BeforeEachResolution` has a result for every
configuration, level, transform and previous state, and in it every entry that is
absent has its default: `subtractMean = false`, `numAdditionalSamplesFixed = 0`,
`reducedDimensionIndex = 0`, and `useMovingImageDerivativeScales = false` when an
axis has no value. -/
theorem missing_configuration_defaults (host : Host F M) (s : MetricParameters F M)
    (hb : host.configuration.bools.LeavesMissingUntouched)
    (hu : host.configuration.uints.LeavesMissingUntouched) :
    ∃ out : Outcome F M, BeforeEachResolution host s = out ∧
      (host.configuration.bools.found
          ⟨"SubtractMean", host.componentLabel, 0, 0, defaultLenient⟩ = false →
        out.params.subtractMean = false) ∧
      (host.configuration.uints.found
          ⟨"NumAdditionalSamplesFixed", host.componentLabel, host.currentLevel, 0,
            defaultLenient⟩ = false →
        out.params.numAdditionalSamplesFixed = 0) ∧
      (host.configuration.uints.found
          ⟨"ReducedDimensionIndex", host.componentLabel, 0, 0, defaultLenient⟩ = false →
        out.params.reducedDimensionIndex = 0) ∧
      ((∃ i : Fin M,
          host.configuration.doubles.found (scalesCall host.componentLabel i.val) = false) →
        out.params.useMovingImageDerivativeScales = false) := by
  refine ⟨BeforeEachResolution host s, rfl, ?_, ?_, ?_, ?_⟩
  · intro h
    rw [(BeforeEachResolution_read_fields host s).1]
    exact hb _ _ h
  · intro h
    rw [(BeforeEachResolution_read_fields host s).2.1]
    exact hu _ _ h
  · intro h
    rw [(BeforeEachResolution_read_fields host s).2.2]
    exact hu _ _ h
  · rintro ⟨i, hi⟩
    cases h1 : (BeforeEachResolution host s).params.useMovingImageDerivativeScales
    · rfl
    · have := (BeforeEachResolution_useScales host s).mp h1 i
      rw [hi] at this
      cases this

/-- C7 at a sample input: the empty configuration, level 3, a stack transform, and
a previous state in which every field differs from its default. -/
theorem missing_configuration_defaults_witness :
    emptyConfiguration.bools.LeavesMissingUntouched ∧
    emptyConfiguration.uints.LeavesMissingUntouched ∧
    (BeforeEachResolution (sampleHost 2 2 emptyConfiguration 3 (stackTransform 2 [otherSub]))
      (sampleParameters 2 2)).params.subtractMean = false ∧
    (BeforeEachResolution (sampleHost 2 2 emptyConfiguration 3 (stackTransform 2 [otherSub]))
      (sampleParameters 2 2)).params.numAdditionalSamplesFixed = 0 ∧
    (BeforeEachResolution (sampleHost 2 2 emptyConfiguration 3 (stackTransform 2 [otherSub]))
      (sampleParameters 2 2)).params.reducedDimensionIndex = 0 ∧
    (BeforeEachResolution (sampleHost 2 2 emptyConfiguration 3 (stackTransform 2 [otherSub]))
      (sampleParameters 2 2)).params.useMovingImageDerivativeScales = false := by
  have hb : emptyConfiguration.bools.LeavesMissingUntouched := fun _ _ _ => rfl
  have hu : emptyConfiguration.uints.LeavesMissingUntouched := fun _ _ _ => rfl
  obtain ⟨out, hout, h1, h2, h3, h4⟩ := missing_configuration_defaults
    (sampleHost 2 2 emptyConfiguration 3 (stackTransform 2 [otherSub]))
    (sampleParameters 2 2) hb hu
  subst hout
  exact ⟨hb, hu, h1 rfl, h2 rfl, h3 rfl, h4 ⟨⟨0, by decide⟩, rfl⟩⟩

/-- C8: `subtractMean` and `reducedDimensionIndex` do not depend on the level.  At
every level the trace holds one read of `SubtractMean` and one of
`ReducedDimensionIndex`, both with axis index 0 and resolution level 0, so with one
configuration the two fields come out the same at any two levels (also for different
transforms and previous states). -/
theorem subtractMean_reducedDimensionIndex_level_independent
    (cfg : Configuration) (label : String) (l1 l2 : Nat) (tr1 tr2 : ElxTransformBase F)
    (u1 u2 : FixedArray Double M) (s1 s2 : MetricParameters F M) :
    (BeforeEachResolution ⟨cfg, label, l1, tr1, u1⟩ s1).params.subtractMean =
      (BeforeEachResolution ⟨cfg, label, l2, tr2, u2⟩ s2).params.subtractMean ∧
    (BeforeEachResolution ⟨cfg, label, l1, tr1, u1⟩ s1).params.reducedDimensionIndex =
      (BeforeEachResolution ⟨cfg, label, l2, tr2, u2⟩ s2).params.reducedDimensionIndex ∧
    (BeforeEachResolution ⟨cfg, label, l1, tr1, u1⟩ s1).reads.filter
        (fun c => decide (c.key = "SubtractMean")) =
      [⟨"SubtractMean", label, 0, 0, defaultLenient⟩] ∧
    (BeforeEachResolution ⟨cfg, label, l1, tr1, u1⟩ s1).reads.filter
        (fun c => decide (c.key = "ReducedDimensionIndex")) =
      [⟨"ReducedDimensionIndex", label, 0, 0, defaultLenient⟩] := by
  have f1 := BeforeEachResolution_read_fields (⟨cfg, label, l1, tr1, u1⟩ : Host F M) s1
  have f2 := BeforeEachResolution_read_fields (⟨cfg, label, l2, tr2, u2⟩ : Host F M) s2
  obtain ⟨extra, hr, hk⟩ := BeforeEachResolution_reads (⟨cfg, label, l1, tr1, u1⟩ : Host F M) s1
  refine ⟨f1.1.trans f2.1.symm, f1.2.2.trans f2.2.2.symm, ?_, ?_⟩
  · rw [hr, List.filter_append]
    have he : extra.filter (fun c => decide (c.key = "SubtractMean")) = [] := by
      rw [List.filter_eq_nil_iff]
      intro c hc
      rw [hk c hc]
      simp [scalesCall]
    rw [he]
    simp [List.filter_cons]
  · rw [hr, List.filter_append]
    have he : extra.filter (fun c => decide (c.key = "ReducedDimensionIndex")) = [] := by
      rw [List.filter_eq_nil_iff]
      intro c hc
      rw [hk c hc]
      simp [scalesCall]
    rw [he]
    simp [List.filter_cons]

/-- C9, as stated, fails at level 1: the one read of `NumAdditionalSamplesFixed` does
not carry the level in its `resolutionLevel` argument (it carries 0 there, and the
level in `axisIndex`). -/
theorem numAdditionalSamplesFixed_resolutionLevel_counterexample :
    ¬ ∃ c : ReadCall,
      (BeforeEachResolution (sampleHost 2 2 sampleConfiguration 1 (plainTransform 2))
        (sampleParameters 2 2)).reads.filter
          (fun c => decide (c.key = "NumAdditionalSamplesFixed")) = [c] ∧
      c.resolutionLevel = 1 ∧
      (BeforeEachResolution (sampleHost 2 2 sampleConfiguration 1 (plainTransform 2))
        (sampleParameters 2 2)).params.numAdditionalSamplesFixed =
        (ReadParameter sampleConfiguration.uints 0 c).2 := by
  rintro ⟨c, hc, hl, -⟩
  have hf : (BeforeEachResolution (sampleHost 2 2 sampleConfiguration 1 (plainTransform 2))
      (sampleParameters 2 2)).reads.filter
        (fun c => decide (c.key = "NumAdditionalSamplesFixed")) =
      [⟨"NumAdditionalSamplesFixed", "Metric", 1, 0, false⟩] := by decide
  rw [hf] at hc
  have hcc : (⟨"NumAdditionalSamplesFixed", "Metric", 1, 0, false⟩ : ReadCall) = c :=
    List.head_eq_of_cons_eq hc
  rw [← hcc] at hl
  exact absurd hl (by decide)

/-- C9, amended: at every level `l`, `BeforeEachResolution` issues exactly one read of
`NumAdditionalSamplesFixed`; its `axisIndex` argument (the fourth) is `l`, its
`resolutionLevel` argument (the fifth) is 0, and the stored
`numAdditionalSamplesFixed` is the value that read leaves in its slot. -/
theorem numAdditionalSamplesFixed_read_at_level (host : Host F M)
    (s : MetricParameters F M) :
    (BeforeEachResolution host s).reads.filter
        (fun c => decide (c.key = "NumAdditionalSamplesFixed")) =
      [⟨"NumAdditionalSamplesFixed", host.componentLabel, host.currentLevel, 0,
        defaultLenient⟩] ∧
    (BeforeEachResolution host s).params.numAdditionalSamplesFixed =
      (ReadParameter host.configuration.uints 0
        ⟨"NumAdditionalSamplesFixed", host.componentLabel, host.currentLevel, 0,
          defaultLenient⟩).2 := by
  obtain ⟨extra, hr, hk⟩ := BeforeEachResolution_reads host s
  refine ⟨?_, (BeforeEachResolution_read_fields host s).2.1⟩
  rw [hr, List.filter_append]
  have he : extra.filter (fun c => decide (c.key = "NumAdditionalSamplesFixed")) = [] := by
    rw [List.filter_eq_nil_iff]
    intro c hc
    rw [hk c hc]
    simp [scalesCall]
  rw [he]
  simp [List.filter_cons]

/-- C10: if the base initialization fails, `Initialize` fails with the same error and
the log is as before; if it succeeds, `Initialize` succeeds and the log has exactly
one more line. -/
theorem Initialize_propagates_or_logs_once {ε : Type} (elapsedMs : Int)
    (log : List LogLine) :
    (∀ e : ε, Initialize (Except.error e) elapsedMs log = (Except.error e, log)) ∧
    ∃ line : LogLine,
      Initialize (Except.ok () : Except ε Unit) elapsedMs log =
        (Except.ok (), log ++ [line]) :=
  ⟨fun _ => rfl, ⟨LogLine.initializationTook elapsedMs, rfl⟩⟩

/-- C11: for every boolean `b`, `BoolToString b` is the literal `"true"` when `b` is
true and `"false"` when it is false, it is never empty, and `ToString b` is
`BoolToString b`, so never the number text `"0"` or `"1"`. -/
theorem BoolToString_literal (b : Bool) :
    BaseComponent.BoolToString true = "true" ∧
    BaseComponent.BoolToString false = "false" ∧
    BaseComponent.BoolToString b = (if b = true then "true" else "false") ∧
    BaseComponent.BoolToString b ≠ "" ∧
    BaseComponent.ToStringBool b = BaseComponent.BoolToString b ∧
    BaseComponent.ToStringBool b ≠ "0" ∧
    BaseComponent.ToStringBool b ≠ "1" := by
  cases b <;> decide

/-- C12: for every integer `n` (so for every signed and every unsigned 64-bit
value), `ToString n` is the canonical decimal text of `n`: reading it as a decimal
integer gives `n` back, it starts with `-` exactly when `n` is negative and is then
`-` followed by the text of `-n`, the text of a positive number does not start with
`0`, and the text of zero is `"0"`.  At the 64-bit boundaries the texts are
`"-9223372036854775808"` and `"18446744073709551615"`. -/
theorem ToString_integer_canonical (n : Int) :
    BaseComponent.parseInteger (BaseComponent.ToStringInteger n) = some n ∧
    ((BaseComponent.ToStringInteger n).data.head? = some '-' ↔ n < 0) ∧
    (n < 0 → (BaseComponent.ToStringInteger n).data =
      '-' :: (BaseComponent.ToStringInteger (-n)).data) ∧
    (0 < n → (BaseComponent.ToStringInteger n).data.head? ≠ some '0') ∧
    BaseComponent.ToStringInteger 0 = "0" ∧
    BaseComponent.ToStringInteger (-9223372036854775808) = "-9223372036854775808" ∧
    BaseComponent.ToStringInteger 18446744073709551615 = "18446744073709551615" := by
  obtain ⟨c, cs, hd, hm, hz⟩ :=
    BaseComponent.decimalDigits_head (n.natAbs + 1) n.natAbs (Nat.lt_succ_self _)
  refine ⟨BaseComponent.parseInteger_ToStringInteger n, ?_, ?_, ?_, by decide, by decide,
    by decide⟩
  · unfold BaseComponent.ToStringInteger
    by_cases hn : n < 0
    · simp [hn]
    · rw [if_neg hn, hd]
      simp only [List.head?_cons, Option.some.injEq]
      exact ⟨fun h => absurd h hm, fun h => absurd h hn⟩
  · intro hn
    have hn2 : ¬ (-n < 0) := by omega
    unfold BaseComponent.ToStringInteger
    rw [if_pos hn, if_neg hn2, Int.natAbs_neg]
  · intro hn
    have hn2 : ¬ (n < 0) := by omega
    unfold BaseComponent.ToStringInteger
    rw [if_neg hn2, hd]
    simp only [List.head?_cons, ne_eq, Option.some.injEq]
    exact hz (by omega)

/-- C12 at sample inputs: the texts of `-42` and of `42`. -/
theorem ToString_integer_canonical_witness :
    ((-42 : Int) < 0 ∧
      (BaseComponent.ToStringInteger (-42)).data =
        '-' :: (BaseComponent.ToStringInteger (- -42)).data) ∧
    ((0 : Int) < 42 ∧ (BaseComponent.ToStringInteger 42).data.head? ≠ some '0') :=
  ⟨⟨by decide, (ToString_integer_canonical (-42)).2.2.1 (by decide)⟩,
   ⟨by decide, (ToString_integer_canonical 42).2.2.2.1 (by decide)⟩⟩

/-- C13: for every fixed-size tuple `t` with `k` components, `ToVectorOfStrings t` has
`k` entries and entry `i` is `ToString` of component `i`; for a matrix with `R` rows
and `C` columns it has `R * C` entries and entry `i * C + j` is `ToString` of element
`(i, j)`.  The size `{1, 2}` gives `["1", "2"]`, every entry of an all-zero 2x2 matrix
is the text of zero, and that text is `"0"` for integer zero. -/
theorem ToVectorOfStrings_components {α : Type} {k R C : Nat} (ToString : α → String)
    (t : FixedArray α k) (m : FixedArray (FixedArray α C) R) (zero : α) :
    (BaseComponent.ToVectorOfStrings ToString t).length = k ∧
    (∀ i : Fin k,
      (BaseComponent.ToVectorOfStrings ToString t)[i.val]? = some (ToString (t.get i))) ∧
    (BaseComponent.ToVectorOfStringsOfMatrix ToString m).length = R * C ∧
    (∀ (i : Fin R) (j : Fin C),
      (BaseComponent.ToVectorOfStringsOfMatrix ToString m)[i.val * C + j.val]? =
        some (ToString ((m.get i).get j))) ∧
    BaseComponent.ToVectorOfStrings BaseComponent.ToStringInteger
      (⟨[1, 2], rfl⟩ : FixedArray Int 2) = ["1", "2"] ∧
    BaseComponent.ToVectorOfStringsOfMatrix ToString
      (FixedArray.Fill 2 (FixedArray.Fill 2 zero)) =
      [ToString zero, ToString zero, ToString zero, ToString zero] ∧
    BaseComponent.ToVectorOfStringsOfMatrix BaseComponent.ToStringInteger
      (FixedArray.Fill 2 (FixedArray.Fill 2 (0 : Int))) = ["0", "0", "0", "0"] := by
  refine ⟨?_, ?_, ?_, ?_, by decide, rfl, by decide⟩
  · unfold BaseComponent.ToVectorOfStrings
    rw [List.length_map, t.size_eq]
  · intro i
    unfold BaseComponent.ToVectorOfStrings
    rw [List.getElem?_map, FixedArray.getElem?_data]
    rfl
  · unfold BaseComponent.ToVectorOfStringsOfMatrix
    rw [BaseComponent.length_flatMap_rows, m.size_eq]
  · intro i j
    unfold BaseComponent.ToVectorOfStringsOfMatrix
    rw [BaseComponent.getElem?_flatMap_rows ToString m.data i.val j.val j.isLt,
      FixedArray.getElem?_data, Option.some_bind, FixedArray.getElem?_data]
    rfl

/-- C14, as stated, fails for the empty configuration and two axes: the read of
axis 0 finds nothing, and the read of axis 1 is not issued. -/
theorem derivativeScales_reads_every_axis_counterexample :
    ¬ ((BeforeEachResolution (sampleHost 2 2 emptyConfiguration 0 (plainTransform 2))
        (sampleParameters 2 2)).reads =
      [⟨"SubtractMean", "Metric", 0, 0, false⟩,
       ⟨"NumAdditionalSamplesFixed", "Metric", 0, 0, false⟩,
       ⟨"ReducedDimensionIndex", "Metric", 0, 0, false⟩,
       ⟨"MovingImageDerivativeScales", "Metric", 0, -1, true⟩,
       ⟨"MovingImageDerivativeScales", "Metric", 1, -1, true⟩]) := by
  decide

/-- C14, amended: the trace of `BeforeEachResolution` is the reads of `SubtractMean`,
`NumAdditionalSamplesFixed` and `ReducedDimensionIndex`, once each and in that order,
followed by reads of `MovingImageDerivativeScales` in lenient mode for the axes
`0, 1, ...` in ascending order, up to and including the first axis without a value:
all `M` axes when every axis has a value, the axes `0, ..., k` when `k` is the first
axis without one. -/
theorem derivativeScales_reads_until_first_missing (host : Host F M)
    (s : MetricParameters F M) :
    ((∀ i : Fin M,
        host.configuration.doubles.found (scalesCall host.componentLabel i.val) = true) →
      (BeforeEachResolution host s).reads =
        [⟨"SubtractMean", host.componentLabel, 0, 0, defaultLenient⟩,
         ⟨"NumAdditionalSamplesFixed", host.componentLabel, host.currentLevel, 0,
           defaultLenient⟩,
         ⟨"ReducedDimensionIndex", host.componentLabel, 0, 0, defaultLenient⟩] ++
        (List.range M).map (scalesCall host.componentLabel)) ∧
    (∀ k : Fin M,
      (∀ i : Fin M, i.val < k.val →
        host.configuration.doubles.found (scalesCall host.componentLabel i.val) = true) →
      host.configuration.doubles.found (scalesCall host.componentLabel k.val) = false →
      (BeforeEachResolution host s).reads =
        [⟨"SubtractMean", host.componentLabel, 0, 0, defaultLenient⟩,
         ⟨"NumAdditionalSamplesFixed", host.componentLabel, host.currentLevel, 0,
           defaultLenient⟩,
         ⟨"ReducedDimensionIndex", host.componentLabel, 0, 0, defaultLenient⟩] ++
        (List.range (k.val + 1)).map (scalesCall host.componentLabel)) ∧
    (∀ i : Nat, scalesCall host.componentLabel i =
      ⟨"MovingImageDerivativeScales", host.componentLabel, i, -1, true⟩) := by
  refine ⟨?_, ?_, fun _ => rfl⟩
  · intro hall
    unfold BeforeEachResolution
    dsimp only
    exact scalesLoop_reads_all host.configuration host.componentLabel _ rfl M (Nat.le_refl M)
      (fun i _ => hall i)
  · intro k hbefore hk
    unfold BeforeEachResolution
    dsimp only
    exact scalesLoop_reads_stop host.configuration host.componentLabel _ rfl k hbefore hk

/-- C14, amended, at sample inputs: with two axes that both have a value the trace
ends with the reads of the axes 0 and 1; with the empty configuration and three axes
it ends with the read of axis 0. -/
theorem derivativeScales_reads_until_first_missing_witness :
    (BeforeEachResolution (sampleHost 2 2 sampleConfiguration 1 (plainTransform 2))
      (sampleParameters 2 2)).reads =
      [⟨"SubtractMean", "Metric", 0, 0, false⟩,
       ⟨"NumAdditionalSamplesFixed", "Metric", 1, 0, false⟩,
       ⟨"ReducedDimensionIndex", "Metric", 0, 0, false⟩] ++
      (List.range 2).map (scalesCall "Metric") ∧
    (BeforeEachResolution (sampleHost 2 3 emptyConfiguration 1 (plainTransform 2))
      (sampleParameters 2 3)).reads =
      [⟨"SubtractMean", "Metric", 0, 0, false⟩,
       ⟨"NumAdditionalSamplesFixed", "Metric", 1, 0, false⟩,
       ⟨"ReducedDimensionIndex", "Metric", 0, 0, false⟩] ++
      (List.range (0 + 1)).map (scalesCall "Metric") :=
  ⟨(derivativeScales_reads_until_first_missing
      (sampleHost 2 2 sampleConfiguration 1 (plainTransform 2)) (sampleParameters 2 2)).1
      (by decide),
   (derivativeScales_reads_until_first_missing
      (sampleHost 2 3 emptyConfiguration 1 (plainTransform 2)) (sampleParameters 2 3)).2.1
      ⟨0, by decide⟩ (by decide) (by decide)⟩

/-- C15: when the current transform of a combination transform answers both the
B-spline cast and the stack cast, `BeforeEachResolution` treats it as a B-spline
transform: `gridSize` is the size of the B-spline grid region, `isStackTransform`
keeps its value, and the result of the call is the same whatever the stack is (and
the same as without a stack). -/
theorem bspline_cast_wins (cfg : Configuration) (label : String) (level : Nat)
    (u : FixedArray Double M) (s : MetricParameters F M) (b : BSplineTransformBase F)
    (st : StackTransform) (other : Option StackTransform) :
    (BeforeEachResolution ⟨cfg, label, level, ⟨some ⟨⟨some b, some st⟩⟩⟩, u⟩ s).params.gridSize =
      b.gridRegionSize ∧
    (BeforeEachResolution
        ⟨cfg, label, level, ⟨some ⟨⟨some b, some st⟩⟩⟩, u⟩ s).params.isStackTransform =
      s.isStackTransform ∧
    (BeforeEachResolution ⟨cfg, label, level, ⟨some ⟨⟨some b, some st⟩⟩⟩, u⟩ s).params =
      (BeforeEachResolution ⟨cfg, label, level, ⟨some ⟨⟨some b, other⟩⟩⟩, u⟩ s).params := by
  refine ⟨?_, ?_, rfl⟩
  · rw [BeforeEachResolution_gridSize]
    rfl
  · rw [BeforeEachResolution_isStackTransform]
    rfl

/-- C16: `BeforeEachResolution` never resets `isStackTransform`.  Unless the
transform is a combination transform around a stack transform that is not a B-spline
transform, the flag after the call is the flag of before the call; a flag that is
true stays true; and over a sequence of levels a flag that is true after some levels
is true after all later ones. -/
theorem isStackTransform_never_reset (host : Host F M) (s : MetricParameters F M)
    (earlier later : List (Host F M)) :
    ((¬ ∃ (c : CombinationTransform F) (st : StackTransform),
        host.elxTransformBase.asCombinationTransform = some c ∧
        c.GetCurrentTransform.asBSplineTransformBase = none ∧
        c.GetCurrentTransform.asStackTransform = some st) →
      (BeforeEachResolution host s).params.isStackTransform = s.isStackTransform) ∧
    (s.isStackTransform = true →
      (BeforeEachResolution host s).params.isStackTransform = true) ∧
    ((runResolutions earlier s).isStackTransform = true →
      (runResolutions (earlier ++ later) s).isStackTransform = true) := by
  refine ⟨?_, ?_, ?_⟩
  · intro h
    rw [BeforeEachResolution_isStackTransform]
    exact inspectTransform_isStackTransform_retained _ _ h
  · intro h
    rw [BeforeEachResolution_isStackTransform]
    exact inspectTransform_isStackTransform_mono _ _ h
  · intro h
    have happ : runResolutions (earlier ++ later) s =
        runResolutions later (runResolutions earlier s) := by
      unfold runResolutions
      rw [List.foldl_append]
    rw [happ]
    exact runResolutions_isStackTransform_mono later _ h

/-- C16 at sample inputs: the flag is true after a level with a stack transform; a
level with a plain transform and a level with a B-spline transform both keep it, and
it is still true after the sequence stack, plain, B-spline. -/
theorem isStackTransform_never_reset_witness :
    (BeforeEachResolution (sampleHost 2 2 emptyConfiguration 1 (plainTransform 2))
      (SetTransformIsStackTransform true (sampleParameters 2 2))).params.isStackTransform =
      true ∧
    (BeforeEachResolution
      (sampleHost 2 2 emptyConfiguration 2 (bsplineTransform ⟨[6, 8], rfl⟩))
      (SetTransformIsStackTransform true (sampleParameters 2 2))).params.isStackTransform =
      true ∧
    (runResolutions [sampleHost 2 2 emptyConfiguration 0 (stackTransform 2 [otherSub])]
      (sampleParameters 2 2)).isStackTransform = true ∧
    (runResolutions
      ([sampleHost 2 2 emptyConfiguration 0 (stackTransform 2 [otherSub])] ++
        [sampleHost 2 2 emptyConfiguration 1 (plainTransform 2),
         sampleHost 2 2 emptyConfiguration 2 (bsplineTransform ⟨[6, 8], rfl⟩)])
      (sampleParameters 2 2)).isStackTransform = true :=
  ⟨(isStackTransform_never_reset
      (sampleHost 2 2 emptyConfiguration 1 (plainTransform 2))
      (SetTransformIsStackTransform true (sampleParameters 2 2)) [] []).1
      (fun ⟨_, _, hc, _, _⟩ => by cases hc),
   (isStackTransform_never_reset
      (sampleHost 2 2 emptyConfiguration 2 (bsplineTransform ⟨[6, 8], rfl⟩))
      (SetTransformIsStackTransform true (sampleParameters 2 2)) [] []).2.1 rfl,
   by decide,
   (isStackTransform_never_reset
      (sampleHost 2 2 emptyConfiguration 1 (plainTransform 2)) (sampleParameters 2 2)
      [sampleHost 2 2 emptyConfiguration 0 (stackTransform 2 [otherSub])]
      [sampleHost 2 2 emptyConfiguration 1 (plainTransform 2),
       sampleHost 2 2 emptyConfiguration 2 (bsplineTransform ⟨[6, 8], rfl⟩)]).2.2
      (by decide)⟩

/-- C17: `BeforeEachResolution` is idempotent.  For every configuration, level,
transform and previous state, a second call with the same inputs leaves all seven
member variables as the first call left them; this also holds when the
uninitialised local array of the second call holds something else, as long as the
reader of the scales overwrites its slot when it finds a value. -/
theorem BeforeEachResolution_idempotent (host : Host F M) (s : MetricParameters F M) :
    (BeforeEachResolution host (BeforeEachResolution host s).params).params =
      (BeforeEachResolution host s).params ∧
    (host.configuration.doubles.OverwritesWhenFound →
      ∀ u : FixedArray Double M,
        (BeforeEachResolution
            ⟨host.configuration, host.componentLabel, host.currentLevel,
              host.elxTransformBase, u⟩
            (BeforeEachResolution host s).params).params =
          (BeforeEachResolution host s).params) :=
  ⟨BeforeEachResolution_twice host s host.uninitialised (Or.inl rfl),
   fun h u => BeforeEachResolution_twice host s u (Or.inr h)⟩

/-- C17 at a sample input: the sample configuration overwrites a slot when it finds
a value, and a second call whose local array starts with other content gives the
member variables of the first call. -/
theorem BeforeEachResolution_idempotent_witness :
    sampleConfiguration.doubles.OverwritesWhenFound ∧
    (BeforeEachResolution
        (sampleHost 2 2 sampleConfiguration 1
          (stackTransform 2 [reducedBSplineSub, otherSub]))
        (sampleParameters 2 2)).params.movingImageDerivativeScales =
      ⟨[⟨100⟩, ⟨101⟩], rfl⟩ ∧
    (BeforeEachResolution
        ⟨sampleConfiguration, "Metric", 1, stackTransform 2 [reducedBSplineSub, otherSub],
          FixedArray.Fill 2 ⟨77⟩⟩
        (BeforeEachResolution
          (sampleHost 2 2 sampleConfiguration 1
            (stackTransform 2 [reducedBSplineSub, otherSub]))
          (sampleParameters 2 2)).params).params =
      (BeforeEachResolution
        (sampleHost 2 2 sampleConfiguration 1
          (stackTransform 2 [reducedBSplineSub, otherSub]))
        (sampleParameters 2 2)).params := by
  have hw : sampleConfiguration.doubles.OverwritesWhenFound := by
    intro c old other hf
    simp only [sampleConfiguration, decide_eq_true_eq] at hf
    simp only [sampleConfiguration, if_pos hf]
  exact ⟨hw, by decide,
    (BeforeEachResolution_idempotent
      (sampleHost 2 2 sampleConfiguration 1 (stackTransform 2 [reducedBSplineSub, otherSub]))
      (sampleParameters 2 2)).2 hw (FixedArray.Fill 2 ⟨77⟩)⟩

end Claims

end elastix
